import Mathlib

/-!
Verification development for the elevator simulation engine of
`src/elevator_saga/server/simulator.py` (class `ElevatorSimulation`).

The simulator imports its domain model from `elevator_saga/core/models.py`,
a file of this repository that is not present under `src/`; the structures
and small derived accessors of that module (positions, indicators, derived
passenger status, `create_empty_simulation_state`, ...) are modelled from
the specification and are marked `Modelled from the spec:` in their doc
comments.  Everything else is translated directly from `simulator.py`.

Modelling conventions:
* Python ints that are used as counts, ids, ticks and floor indices are
  `Nat`; quantities that can be negative in the source (slice bounds
  computed as capacity differences, movement deltas, command arguments,
  wait times) are `Int`, and Python's negative-index slice semantics is
  reproduced by `pyTake`/`pyDrop`.
* The Python `dict` of passengers (insertion ordered, unique keys) is an
  association list; `pset`/`pmodify` mirror `d[k] = v` / in-place field
  mutation of the stored object.
* List indexing out of range raises in Python; the simulator only indexes
  with in-range floor ids in reachable states, and the embedding uses
  `List.getD`/`List.set` (which are total) at those spots.
* The `threading.Lock` is elided from the functional semantics (every
  operation is atomic); `stepLockedAux` additionally models the lock's
  non-reentrancy, representing a self-deadlock as `Option.none`.
-/

inductive Direction where
  | up
  | down
  | none
  deriving DecidableEq, Repr

inductive ElevatorStatus where
  | stopped
  | start_up
  | constant_speed
  | start_down
  deriving DecidableEq, Repr

inductive PassengerStatus where
  | waiting
  | in_elevator
  | completed
  deriving DecidableEq, Repr

inductive EventType where
  | up_button_pressed
  | down_button_pressed
  | passing_floor
  | stopped_at_floor
  | idle
  | passenger_board
  | passenger_alight
  deriving DecidableEq, Repr

/-- Payload of a simulation event: the Python source passes small dicts whose
keys are a subset of elevator / floor / passenger / direction. -/
structure EventData where
  elevator : Option Nat
  floor : Option Nat
  passenger : Option Nat
  direction : Option Direction
  deriving DecidableEq, Repr

def edFloor (f : Nat) : EventData :=
  ⟨Option.none, some f, Option.none, Option.none⟩

def edFloorPassenger (f pid : Nat) : EventData :=
  ⟨Option.none, some f, some pid, Option.none⟩

def edElevFloor (e f : Nat) : EventData :=
  ⟨some e, some f, Option.none, Option.none⟩

def edElevFloorPass (e f pid : Nat) : EventData :=
  ⟨some e, some f, some pid, Option.none⟩

def edPassing (e f : Nat) (d : Direction) : EventData :=
  ⟨some e, some f, Option.none, some d⟩

structure SimulationEvent where
  tick : Nat
  type : EventType
  data : EventData
  deriving DecidableEq, Repr

/-- Modelled from the spec: `PassengerInfo` of core/models.py.  `pickup_tick`
and `dropoff_tick` are 0 while unset; `elevator_id` is set at boarding. -/
structure PassengerInfo where
  id : Nat
  origin : Nat
  destination : Nat
  arrive_tick : Nat
  pickup_tick : Nat
  dropoff_tick : Nat
  elevator_id : Option Nat
  deriving DecidableEq, Repr

/-- Modelled from the spec: derived passenger status, computed from the two
tick fields and never stored. -/
def PassengerInfo.status (p : PassengerInfo) : PassengerStatus :=
  if p.dropoff_tick ≠ 0 then PassengerStatus.completed
  else if p.pickup_tick ≠ 0 then PassengerStatus.in_elevator
  else PassengerStatus.waiting

def defaultPassenger : PassengerInfo :=
  ⟨0, 0, 0, 0, 0, 0, Option.none⟩

/-- Modelled from the spec: the elevator position of core/models.py.  The
car's absolute position in fixed units is `current_floor * 10 +
floor_up_position`. -/
structure ElevatorPosition where
  current_floor : Nat
  floor_up_position : Nat
  target_floor : Nat
  deriving DecidableEq, Repr

/-- Modelled from the spec: `floor_up_position_add` of core/models.py.  Moves
the car by `d` fixed position units and renormalizes into floor index plus
sub-floor offset, returning the new current floor together with the new
position.  Positions never go negative in the simulator; a negative total is
clamped at 0. -/
def floorUpPositionAdd (pos : ElevatorPosition) (d : Int) : Nat × ElevatorPosition :=
  let total : Int := (pos.current_floor : Int) * 10 + (pos.floor_up_position : Int) + d
  let t : Nat := total.toNat
  (t / 10, ⟨t / 10, t % 10, pos.target_floor⟩)

/-- Modelled from the spec: the up/down direction lamps of an elevator. -/
structure ElevatorIndicators where
  up : Bool
  down : Bool
  deriving DecidableEq, Repr

/-- Modelled from the spec: `set_direction` of core/models.py sets the lamp
matching the committed travel direction (mutually exclusive; `Direction.none`
clears both). -/
def setDirection (_ind : ElevatorIndicators) (d : Direction) : ElevatorIndicators :=
  ⟨d == Direction.up, d == Direction.down⟩

/-- Modelled from the spec: `ElevatorState` of core/models.py. -/
structure ElevatorState where
  id : Nat
  position : ElevatorPosition
  run_status : ElevatorStatus
  indicators : ElevatorIndicators
  passengers : List Nat
  passenger_destinations : List (Nat × Nat)
  max_capacity : Nat
  energy_consumed : Rat
  next_target_floor : Option Nat
  deriving DecidableEq, Repr

def ElevatorState.current_floor (e : ElevatorState) : Nat :=
  e.position.current_floor

def ElevatorState.target_floor (e : ElevatorState) : Nat :=
  e.position.target_floor

/-- Modelled from the spec: direction of movement is derived from target
versus current floor. -/
def ElevatorState.target_floor_direction (e : ElevatorState) : Direction :=
  if e.target_floor > e.current_floor then Direction.up
  else if e.target_floor < e.current_floor then Direction.down
  else Direction.none

def defaultElevator : ElevatorState :=
  ⟨0, ⟨0, 0, 0⟩, ElevatorStatus.stopped, ⟨false, false⟩, [], [], 0, 0, Option.none⟩

/-- Modelled from the spec: `FloorState` of core/models.py, two FIFO queues of
waiting passenger ids. -/
structure FloorState where
  floor : Nat
  up_queue : List Nat
  down_queue : List Nat
  deriving DecidableEq, Repr

def defaultFloor : FloorState :=
  ⟨0, [], []⟩

structure TrafficEntry where
  id : Nat
  origin : Nat
  destination : Nat
  tick : Nat
  deriving DecidableEq, Repr

/-- Passenger table: the Python `dict` of passengers keyed by id, as an
insertion-ordered association list with unique keys. -/
abbrev PassengerTable := List (Nat × PassengerInfo)

/-- Lookup of `self.passengers[pid]`; the source raises `KeyError` on a
missing key, which never happens in the simulator; the model returns
`defaultPassenger` there. -/
def pget (tbl : PassengerTable) (pid : Nat) : PassengerInfo :=
  match tbl with
  | [] => defaultPassenger
  | (k, p) :: rest => if k = pid then p else pget rest pid

/-- Key membership in the passenger table. -/
def pmemb (tbl : PassengerTable) (pid : Nat) : Bool :=
  tbl.any (fun kp => kp.1 == pid)

/-- In-place mutation of the stored passenger object (`self.passengers[pid].f = v`). -/
def pmodify (tbl : PassengerTable) (pid : Nat) (f : PassengerInfo → PassengerInfo) :
    PassengerTable :=
  tbl.map (fun kp => if kp.1 = pid then (kp.1, f kp.2) else kp)

/-- Dict assignment `self.passengers[pid] = p`: overwrite in place if the key
exists, else append (Python dicts keep insertion order). -/
def pset (tbl : PassengerTable) (pid : Nat) (p : PassengerInfo) : PassengerTable :=
  if pmemb tbl pid then pmodify tbl pid (fun _ => p) else tbl ++ [(pid, p)]

/-- Python slice `l[:k]` (a negative bound counts from the end). -/
def pyTake (k : Int) (l : List α) : List α :=
  if 0 ≤ k then l.take k.toNat else l.take ((l.length : Int) + k).toNat

/-- Python slice `l[k:]` (a negative bound counts from the end). -/
def pyDrop (k : Int) (l : List α) : List α :=
  if 0 ≤ k then l.drop k.toNat else l.drop ((l.length : Int) + k).toNat

/-- Modelled from the spec: `SimulationState` of core/models.py, the single
owner of elevators, floors, the passenger table, the event log and the tick
counter. -/
structure SimulationState where
  tick : Nat
  elevators : List ElevatorState
  floors : List FloorState
  passengers : PassengerTable
  events : List SimulationEvent
  deriving DecidableEq, Repr

/-- Modelled from the spec: `add_event` appends an event stamped with the
current tick to the append-only event log. -/
def SimulationState.addEvent (st : SimulationState) (t : EventType) (d : EventData) :
    SimulationState :=
  { st with events := st.events ++ [⟨st.tick, t, d⟩] }

/-- Modelled from the spec: `create_empty_simulation_state` builds the initial
state with the given elevator count, floor count and per-elevator capacity;
all elevators stopped at floor 0 with cleared lamps and no passengers. -/
def create_empty_simulation_state (ne nf cap : Nat) : SimulationState :=
  { tick := 0
  , elevators := (List.range ne).map (fun i =>
      ⟨i, ⟨0, 0, 0⟩, ElevatorStatus.stopped, ⟨false, false⟩, [], [], cap, 0, Option.none⟩)
  , floors := (List.range nf).map (fun i => ⟨i, [], []⟩)
  , passengers := []
  , events := [] }

/-- The simulation object: `SimulationState` plus the pending traffic queue,
the configured run duration, the next passenger id and the one-shot
force-completion flag (`_force_completed`).  Traffic-file bookkeeping is out
of scope of the engine. -/
structure ElevatorSimulation where
  state : SimulationState
  traffic_queue : List TrafficEntry
  max_duration_ticks : Nat
  next_passenger_id : Nat
  force_completed : Bool
  deriving DecidableEq, Repr

/-- Update a floor of the floors list in place (`self.floors[i]` mutation);
out-of-range indices never occur in the simulator. -/
def floorsModify (floors : List FloorState) (i : Nat) (g : FloorState → FloorState) :
    List FloorState :=
  floors.set i (g (floors.getD i defaultFloor))

/-- The loop of `_process_arrivals` (simulator.py lines 328-348): pop every
traffic entry whose scheduled tick is at most the current tick, materialize a
passenger, enqueue it in the origin floor's direction queue and emit the
button event.  The source asserts `origin != destination`; the simulator only
runs on traffic satisfying it. -/
def processArrivalsAux : List TrafficEntry → SimulationState →
    List TrafficEntry × SimulationState
  | [], st => ([], st)
  | te :: rest, st =>
    if te.tick ≤ st.tick then
      let p : PassengerInfo := ⟨te.id, te.origin, te.destination, st.tick, 0, 0, Option.none⟩
      let st1 := { st with passengers := pset st.passengers p.id p }
      let st2 :=
        if te.destination > te.origin then
          let fs := floorsModify st1.floors te.origin
            (fun f => { f with up_queue := f.up_queue ++ [p.id] })
          SimulationState.addEvent { st1 with floors := fs }
            EventType.up_button_pressed (edFloorPassenger te.origin p.id)
        else
          let fs := floorsModify st1.floors te.origin
            (fun f => { f with down_queue := f.down_queue ++ [p.id] })
          SimulationState.addEvent { st1 with floors := fs }
            EventType.down_button_pressed (edFloorPassenger te.origin p.id)
      processArrivalsAux rest st2
    else (te :: rest, st)

def arrivalsPhase (sim : ElevatorSimulation) : ElevatorSimulation :=
  let r := processArrivalsAux sim.traffic_queue sim.state
  { sim with traffic_queue := r.1, state := r.2 }

/-- `_calculate_distance_to_target` (simulator.py lines 350-354), in fixed
position units. -/
def calculateDistanceToTarget (e : ElevatorState) : Nat :=
  ((e.target_floor : Int) * 10 -
    ((e.current_floor : Int) * 10 + (e.position.floor_up_position : Int))).natAbs

/-- `_should_start_deceleration` (simulator.py lines 356-362). -/
def shouldStartDeceleration (e : ElevatorState) : Bool :=
  calculateDistanceToTarget e ≤ 3

/-- `_get_movement_speed` (simulator.py lines 364-373). -/
def getMovementSpeed (e : ElevatorState) : Nat :=
  match e.run_status with
  | ElevatorStatus.start_up => 1
  | ElevatorStatus.start_down => 1
  | ElevatorStatus.constant_speed => 2
  | ElevatorStatus.stopped => 0

/-- `_update_elevator_status` (simulator.py lines 375-395). -/
def updateElevatorStatus (e : ElevatorState) : ElevatorState :=
  if e.position.current_floor = e.target_floor ∧ e.position.floor_up_position = 0 then
    { e with run_status := ElevatorStatus.stopped }
  else
    match e.run_status with
    | ElevatorStatus.stopped => { e with run_status := ElevatorStatus.start_up }
    | ElevatorStatus.start_up => { e with run_status := ElevatorStatus.constant_speed }
    | ElevatorStatus.constant_speed =>
      if shouldStartDeceleration e then { e with run_status := ElevatorStatus.start_down }
      else e
    | ElevatorStatus.start_down => e

/-- Body of the `_move_elevators` loop (simulator.py lines 397-456) for one
elevator: status update, speed selection, position integration, passing-floor
and stopped-at-floor events. -/
def moveOneElevator (tick : Nat) (e : ElevatorState) : ElevatorState × List SimulationEvent :=
  let target := e.target_floor
  let current := e.position.current_floor
  if target = current ∧ e.next_target_floor = Option.none then (e, [])
  else if target = current ∧ e.position.floor_up_position = 0 then
    ({ e with run_status := ElevatorStatus.stopped }, [])
  else
    let e1 := updateElevatorStatus e
    let speed := getMovementSpeed e1
    if speed = 0 then (e1, [])
    else
      let old_floor := current
      let d : Int :=
        if e1.target_floor_direction == Direction.up then (speed : Int) else -(speed : Int)
      let mv := floorUpPositionAdd e1.position d
      let new_floor := mv.1
      let e2 := { e1 with position := mv.2 }
      let evs1 : List SimulationEvent :=
        if old_floor ≠ new_floor ∧ new_floor ≠ target then
          [⟨tick, EventType.passing_floor, edPassing e2.id new_floor e1.target_floor_direction⟩]
        else []
      if target = new_floor ∧ mv.2.floor_up_position = 0 then
        ({ e2 with run_status := ElevatorStatus.stopped },
          evs1 ++ [⟨tick, EventType.stopped_at_floor, edElevFloor e2.id new_floor⟩])
      else (e2, evs1)

def moveList (tick : Nat) : List ElevatorState → List ElevatorState × List SimulationEvent
  | [] => ([], [])
  | e :: rest =>
    let r := moveOneElevator tick e
    let rr := moveList tick rest
    (r.1 :: rr.1, r.2 ++ rr.2)

/-- `_move_elevators` (simulator.py lines 397-456). -/
def movePhase (sim : ElevatorSimulation) : ElevatorSimulation :=
  let r := moveList sim.state.tick sim.state.elevators
  { sim with state :=
    { sim.state with elevators := r.1, events := sim.state.events ++ r.2 } }

/-- The alight-collection loop of `_process_elevator_stops` (simulator.py
lines 466-471): walk the onboard list, stamp `dropoff_tick` of every
passenger whose destination is the current floor and collect its id. -/
def collectAlight (tick cf : Nat) : List Nat → PassengerTable → PassengerTable × List Nat
  | [], tbl => (tbl, [])
  | pid :: rest, tbl =>
    if (pget tbl pid).destination = cf then
      let tbl1 := pmodify tbl pid (fun p => { p with dropoff_tick := tick })
      let r := collectAlight tick cf rest tbl1
      (r.1, pid :: r.2)
    else collectAlight tick cf rest tbl

/-- Alight block of `_process_elevator_stops` (simulator.py lines 465-479):
returns the updated table, the elevator with alighted passengers removed
(`list.remove` drops the first occurrence) and the alight events. -/
def stopAlight (tick : Nat) (tbl : PassengerTable) (e : ElevatorState) :
    PassengerTable × ElevatorState × List SimulationEvent :=
  let pr := collectAlight tick e.position.current_floor e.passengers tbl
  (pr.1,
   { e with passengers := pr.2.foldl List.erase e.passengers },
   pr.2.map (fun pid =>
     ⟨tick, EventType.passenger_alight, edElevFloorPass e.id e.position.current_floor pid⟩))

/-- Direction-commitment block of `_process_elevator_stops` (simulator.py
lines 483-487): if no lamp is lit, promote the pending target (if any) and
light the lamp of the implied travel direction. -/
def stopCommit (e : ElevatorState) : ElevatorState :=
  if e.indicators.up = false ∧ e.indicators.down = false then
    let e' :=
      match e.next_target_floor with
      | some nt =>
        { e with position := { e.position with target_floor := nt }
               , next_target_floor := Option.none }
      | Option.none => e
    { e' with indicators := setDirection e'.indicators e'.target_floor_direction }
  else e

/-- Up-boarding block of `_process_elevator_stops` (simulator.py lines
489-493): if the up lamp is lit, pull from the up queue up to remaining
capacity (`available_capacity = max_capacity - len(passengers)`), removing
the boarded prefix from the queue. -/
def stopBoardUp (e : ElevatorState) (fl : FloorState) : List Nat × FloorState :=
  let availUp : Int := (e.max_capacity : Int) - (e.passengers.length : Int)
  if e.indicators.up then
    (pyTake availUp fl.up_queue, { fl with up_queue := pyDrop availUp fl.up_queue })
  else ([], fl)

/-- Down-boarding block of `_process_elevator_stops` (simulator.py lines
495-502): if the down lamp is lit and capacity remains after up-boarding,
pull from the down queue up to that remainder. -/
def stopBoardDown (e : ElevatorState) (upCount : Nat) (fl1 : FloorState) :
    List Nat × FloorState :=
  let remaining : Int :=
    (e.max_capacity : Int) - (e.passengers.length : Int) - (upCount : Int)
  if e.indicators.down ∧ remaining > 0 then
    (pyTake remaining fl1.down_queue,
     { fl1 with down_queue := pyDrop remaining fl1.down_queue })
  else ([], fl1)

/-- Queue-slicing block of `_process_elevator_stops` (simulator.py lines
489-502): up-boarding, then down-boarding on what capacity is left.  Returns
the boarded up ids, the boarded down ids, and the floor with the boarded
prefixes removed. -/
def stopBoardSelect (e : ElevatorState) (floor : FloorState) :
    List Nat × List Nat × FloorState :=
  let u := stopBoardUp e floor
  let d := stopBoardDown e u.1.length u.2
  (u.1, d.1, d.2)

/-- Boarding loop of `_process_elevator_stops` (simulator.py lines 509-517):
stamp `pickup_tick` and `elevator_id` of each boarded passenger. -/
def boardStamp (tick eid : Nat) (l : List Nat) (tbl : PassengerTable) : PassengerTable :=
  l.foldl (fun t pid =>
    pmodify t pid (fun p => { p with pickup_tick := tick, elevator_id := some eid })) tbl

/-- Body of the `_process_elevator_stops` loop (simulator.py lines 458-517)
for one elevator, threading floors, passenger table and event log. -/
def processOneStop (tick : Nat) (floors : List FloorState) (tbl : PassengerTable)
    (evs : List SimulationEvent) (e : ElevatorState) :
    ElevatorState × List FloorState × PassengerTable × List SimulationEvent :=
  if e.run_status = ElevatorStatus.stopped then
    let cf := e.position.current_floor
    let a := stopAlight tick tbl e
    let e2 := stopCommit a.2.1
    let floor := floors.getD cf defaultFloor
    let b := stopBoardSelect e2 floor
    let toBoard := b.1 ++ b.2.1
    let floors2 := floors.set cf b.2.2
    if e2.indicators.up = false ∧ e2.indicators.down = false then
      (e2, floors2, a.1, evs ++ a.2.2 ++ [⟨tick, EventType.idle, edElevFloor e.id cf⟩])
    else
      ({ e2 with passengers := e2.passengers ++ toBoard },
       floors2,
       boardStamp tick e.id toBoard a.1,
       evs ++ a.2.2 ++ toBoard.map (fun pid =>
         ⟨tick, EventType.passenger_board, edElevFloorPass e.id cf pid⟩))
  else (e, floors, tbl, evs)

def processStopsList (tick : Nat) : List ElevatorState → List FloorState → PassengerTable →
    List SimulationEvent →
    List ElevatorState × List FloorState × PassengerTable × List SimulationEvent
  | [], floors, tbl, evs => ([], floors, tbl, evs)
  | e :: rest, floors, tbl, evs =>
    let r := processOneStop tick floors tbl evs e
    let rr := processStopsList tick rest r.2.1 r.2.2.1 r.2.2.2
    (r.1 :: rr.1, rr.2)

/-- `_process_elevator_stops` (simulator.py lines 458-517). -/
def stopsPhase (sim : ElevatorSimulation) : ElevatorSimulation :=
  let r := processStopsList sim.state.tick sim.state.elevators sim.state.floors
    sim.state.passengers sim.state.events
  { sim with state :=
    { sim.state with elevators := r.1, floors := r.2.1
                   , passengers := r.2.2.1, events := r.2.2.2 } }

/-- `force_complete_remaining_passengers` (simulator.py lines 599-653),
without the lock: collect every passenger with unset dropoff, remove them
from all elevators and floor queues, stamp their dropoff to the current tick
and return how many were completed. -/
def forceCompleteSim (sim : ElevatorSimulation) : ElevatorSimulation × Nat :=
  let current_tick := sim.state.tick
  let toComplete : List Nat :=
    (sim.state.passengers.filter (fun kp => kp.2.dropoff_tick == 0)).map Prod.fst
  let elevators := sim.state.elevators.map (fun e =>
    { e with passengers := e.passengers.filter (fun pid => !(toComplete.contains pid))
           , passenger_destinations :=
               e.passenger_destinations.filter (fun kd => !(toComplete.contains kd.1)) })
  let floors := sim.state.floors.map (fun f =>
    { f with up_queue := f.up_queue.filter (fun pid => !(toComplete.contains pid))
           , down_queue := f.down_queue.filter (fun pid => !(toComplete.contains pid)) })
  let tbl := toComplete.foldl
    (fun t pid => pmodify t pid (fun p => { p with dropoff_tick := current_tick }))
    sim.state.passengers
  ({ sim with state :=
    { sim.state with elevators := elevators, floors := floors, passengers := tbl } },
   toComplete.length)

/-- One iteration of the `step` loop (simulator.py lines 292-308): increment
the tick, run the three tick phases, then - if the tick counter reached the
configured duration and the one-shot flag is not latched - force-complete the
remaining passengers and latch the flag.  Returns the events generated by
this tick. -/
def stepOne (sim : ElevatorSimulation) : ElevatorSimulation × List SimulationEvent :=
  let s0 := { sim with state := { sim.state with tick := sim.state.tick + 1 } }
  let s1 := stopsPhase (movePhase (arrivalsPhase s0))
  let newEvs := s1.state.events.drop s0.state.events.length
  let s2 :=
    if s1.state.tick ≥ s1.max_duration_ticks ∧ s1.force_completed = false then
      { (forceCompleteSim s1).1 with force_completed := true }
    else s1
  (s2, newEvs)

/-- `step` (simulator.py lines 289-311), lock elided. -/
def stepN (sim : ElevatorSimulation) : Nat → ElevatorSimulation × List SimulationEvent
  | 0 => (sim, [])
  | n + 1 =>
    let r := stepOne sim
    let rr := stepN r.1 n
    (rr.1, r.2 ++ rr.2)

/-- Lock-aware `step`: the source's `step` holds the simulation's
non-reentrant `threading.Lock` for the whole loop, and
`force_complete_remaining_passengers` re-acquires that same lock, so the
duration-cutoff branch blocks the thread forever.  The deadlocked (never
returning) computation is represented by `Option.none`. -/
def stepLockedAux : ElevatorSimulation → Nat → Option ElevatorSimulation
  | sim, 0 => some sim
  | sim, n + 1 =>
    let s0 := { sim with state := { sim.state with tick := sim.state.tick + 1 } }
    let s1 := stopsPhase (movePhase (arrivalsPhase s0))
    if s1.state.tick ≥ s1.max_duration_ticks ∧ s1.force_completed = false then Option.none
    else stepLockedAux s1 n

/-- `elevator_go_to_floor` (simulator.py lines 519-526): range-checked
command; `immediate` writes the active target, otherwise the pending one. -/
def elevatorGoToFloor (sim : ElevatorSimulation) (elevator_id floor : Int)
    (immediate : Bool) : ElevatorSimulation :=
  if 0 ≤ elevator_id ∧ elevator_id < (sim.state.elevators.length : Int) ∧
      0 ≤ floor ∧ floor < (sim.state.floors.length : Int) then
    let i := elevator_id.toNat
    match sim.state.elevators.get? i with
    | some e =>
      let e' :=
        if immediate then
          { e with position := { e.position with target_floor := floor.toNat } }
        else { e with next_target_floor := some floor.toNat }
      { sim with state := { sim.state with elevators := sim.state.elevators.set i e' } }
    | Option.none => sim
  else sim

/-- `elevator_set_indicators` (simulator.py lines 528-535). -/
def elevatorSetIndicators (sim : ElevatorSimulation) (elevator_id : Int)
    (up down : Option Bool) : ElevatorSimulation :=
  if 0 ≤ elevator_id ∧ elevator_id < (sim.state.elevators.length : Int) then
    let i := elevator_id.toNat
    match sim.state.elevators.get? i with
    | some e =>
      let e' := { e with indicators :=
        ⟨up.getD e.indicators.up, down.getD e.indicators.down⟩ }
      { sim with state := { sim.state with elevators := sim.state.elevators.set i e' } }
    | Option.none => sim
  else sim

/-- Capacity of the first elevator, used by `reset`; the source raises
`IndexError` on an empty elevator list, which never occurs (every built state
has at least one elevator). -/
def firstCapacity : List ElevatorState → Nat
  | [] => 0
  | e :: _ => e.max_capacity

/-- `reset` (simulator.py lines 655-664): rebuild the state with the same
geometry and capacity, clear the traffic queue, zero the duration, reset the
id counter and the one-shot flag. -/
def resetSim (sim : ElevatorSimulation) : ElevatorSimulation :=
  { state := create_empty_simulation_state sim.state.elevators.length
      sim.state.floors.length (firstCapacity sim.state.elevators)
  , traffic_queue := []
  , max_duration_ticks := 0
  , next_passenger_id := 1
  , force_completed := false }

/-- `add_passenger` (simulator.py lines 251-282) with the default `tick=None`
(all callers omit it): create a passenger arriving now, enqueue it on its
origin floor (when that floor exists; `get_floor_by_number` is modelled from
the spec as index lookup, floor ids being their indices) and emit the button
event.  Returns the new passenger's id. -/
def addPassengerSim (sim : ElevatorSimulation) (origin destination : Nat) :
    ElevatorSimulation × Nat :=
  let tick := sim.state.tick
  let p : PassengerInfo :=
    ⟨sim.next_passenger_id, origin, destination, tick, 0, 0, Option.none⟩
  let st1 := { sim.state with passengers := pset sim.state.passengers p.id p }
  let st2 :=
    if origin < st1.floors.length then
      if destination > origin then
        let fs := floorsModify st1.floors origin
          (fun f => { f with up_queue := f.up_queue ++ [p.id] })
        SimulationState.addEvent { st1 with floors := fs }
          EventType.up_button_pressed (edFloor origin)
      else
        let fs := floorsModify st1.floors origin
          (fun f => { f with down_queue := f.down_queue ++ [p.id] })
        SimulationState.addEvent { st1 with floors := fs }
          EventType.down_button_pressed (edFloor origin)
    else st1
  ({ sim with state := st2, next_passenger_id := sim.next_passenger_id + 1 }, p.id)

/-- Modelled from the spec: wait time of a passenger, `pickup_tick -
arrive_tick` (`Int`, since a force-completed passenger that never boarded has
`pickup_tick = 0`). -/
def waitTimeOf (p : PassengerInfo) : Int :=
  (p.pickup_tick : Int) - (p.arrive_tick : Int)

/-- Modelled from the spec: system time of a passenger, `dropoff_tick -
arrive_tick`. -/
def systemTimeOf (p : PassengerInfo) : Int :=
  (p.dropoff_tick : Int) - (p.arrive_tick : Int)

def insertSorted (x : Int) : List Int → List Int
  | [] => [x]
  | y :: ys => if x ≤ y then x :: y :: ys else y :: insertSorted x ys

/-- Ascending sort of a sample, as `sorted(data)`. -/
def sortInts (l : List Int) : List Int :=
  l.foldr insertSorted []

/-- The nested `percentile` helper of `_calculate_metrics` (simulator.py
lines 571-576): nearest-rank at index `len * p / 100`, clamped to the last
index. -/
def percentileOf (data : List Int) (p : Nat) : Int :=
  if data.isEmpty then 0
  else (sortInts data).getD (min (data.length * p / 100) (data.length - 1)) 0

/-- `MetricsResponse` (simulator.py lines 92-102); the float aggregates are
exact rationals here. -/
structure MetricsResponse where
  done : Nat
  total : Nat
  avg_wait : Rat
  p95_wait : Rat
  avg_system : Rat
  p95_system : Rat
  energy_total : Rat
  deriving DecidableEq, Repr

/-- `_calculate_metrics` (simulator.py lines 551-586). -/
def calculateMetrics (sim : ElevatorSimulation) : MetricsResponse :=
  let completed := (sim.state.passengers.filter
    (fun kp => kp.2.status == PassengerStatus.completed)).map Prod.snd
  let total_passengers := sim.state.passengers.length
  let energy : Rat := (sim.state.elevators.map (fun e => e.energy_consumed)).sum
  if completed.isEmpty then
    ⟨0, total_passengers, 0, 0, 0, 0, energy⟩
  else
    let wait_times := completed.map waitTimeOf
    let system_times := completed.map systemTimeOf
    ⟨completed.length, total_passengers,
     (wait_times.sum : Rat) / (wait_times.length : Rat),
     (percentileOf wait_times 95 : Rat),
     (system_times.sum : Rat) / (system_times.length : Rat),
     (percentileOf system_times 95 : Rat),
     energy⟩

/-- A dispatch-controller command issued through the engine's command
surface. -/
inductive ControllerCommand where
  | goTo (elevator_id floor : Int) (immediate : Bool)
  | setInd (elevator_id : Int) (up down : Option Bool)
  deriving DecidableEq, Repr

def applyCommand (sim : ElevatorSimulation) : ControllerCommand → ElevatorSimulation
  | ControllerCommand.goTo eid fl imm => elevatorGoToFloor sim eid fl imm
  | ControllerCommand.setInd eid u d => elevatorSetIndicators sim eid u d

def applyCommands (sim : ElevatorSimulation) (cs : List ControllerCommand) :
    ElevatorSimulation :=
  cs.foldl applyCommand sim

/-- Run the simulation for `n` ticks, issuing before each tick the commands
the schedule assigns to the current tick value, and accumulating the event
log. -/
def runSimAux (sched : Nat → List ControllerCommand) :
    ElevatorSimulation → Nat → ElevatorSimulation × List SimulationEvent
  | sim, 0 => (sim, [])
  | sim, n + 1 =>
    let s1 := applyCommands sim (sched sim.state.tick)
    let r := stepOne s1
    let rr := runSimAux sched r.1 n
    (rr.1, r.2 ++ rr.2)

/-- A full observed run: the event log of `n` scheduled ticks together with
the final metrics. -/
def runSimulation (sim : ElevatorSimulation) (sched : Nat → List ControllerCommand)
    (n : Nat) : List SimulationEvent × MetricsResponse :=
  let r := runSimAux sched sim n
  (r.2, calculateMetrics r.1)

/-- States reachable through the engine's public surface: a freshly loaded
traffic case (`load_current_traffic` builds an empty state for the case's
geometry, an arbitrary sorted queue, duration and id counter, with the
one-shot flag cleared), then any sequence of steps, commands, resets,
force-completions and direct passenger injections. -/
inductive Reachable : ElevatorSimulation → Prop where
  | loaded : ∀ ne nf cap queue maxd nid,
      Reachable ⟨create_empty_simulation_state ne nf cap, queue, maxd, nid, false⟩
  | step : ∀ s n, Reachable s → Reachable (stepN s n).1
  | goTo : ∀ s eid fl imm, Reachable s → Reachable (elevatorGoToFloor s eid fl imm)
  | setInd : ∀ s eid u d, Reachable s → Reachable (elevatorSetIndicators s eid u d)
  | reset : ∀ s, Reachable s → Reachable (resetSim s)
  | force : ∀ s, Reachable s → Reachable (forceCompleteSim s).1
  | add : ∀ s o d, Reachable s → Reachable (addPassengerSim s o d).1

/-- Capacity invariant of the spec: no elevator ever holds more passenger ids
than its capacity. -/
def capacityInvariant (sim : ElevatorSimulation) : Prop :=
  ∀ e ∈ sim.state.elevators, e.passengers.length ≤ e.max_capacity

/-- A loaded case whose run duration is 1 tick, with one passenger scheduled
at tick 1: stepping once reaches the duration cutoff. -/
def simDeadlockInput : ElevatorSimulation :=
  ⟨create_empty_simulation_state 1 2 1, [⟨1, 0, 1, 1⟩], 1, 1, false⟩

/-- A simulation at tick 0 holding one waiting passenger, injected through the
public `add_passenger` method. -/
def simTickZeroInjected : ElevatorSimulation :=
  (addPassengerSim ⟨create_empty_simulation_state 1 2 1, [], 0, 1, false⟩ 0 1).1

/-- A simulation whose tick counter has advanced past 0. -/
def simPosTick : ElevatorSimulation :=
  ⟨{ create_empty_simulation_state 1 2 1 with tick := 1 }, [], 0, 1, false⟩

/-- A simulation as left by loading a traffic case with one pending entry and
duration 100. -/
def simLoadedCase : ElevatorSimulation :=
  ⟨create_empty_simulation_state 1 2 1, [⟨1, 0, 1, 3⟩], 100, 2, false⟩

/-- A loaded case used to exhibit boarding with both lamps lit. -/
def simBothInd : ElevatorSimulation :=
  ⟨create_empty_simulation_state 1 2 2, [⟨1, 0, 1, 1⟩], 100, 2, false⟩

/-- Both indicators switched on through the public command surface. -/
def simBothIndSet : ElevatorSimulation :=
  elevatorSetIndicators simBothInd 0 (some true) (some true)

/-- The state at entry of the stop-resolution phase of the next tick of
`simBothIndSet` (tick incremented, arrivals admitted, elevators moved). -/
def simBothIndMid : ElevatorSimulation :=
  movePhase (arrivalsPhase
    { simBothIndSet with state :=
      { simBothIndSet.state with tick := simBothIndSet.state.tick + 1 } })

/-- A small freshly loaded simulation. -/
def simSmall : ElevatorSimulation :=
  ⟨create_empty_simulation_state 1 2 1, [], 0, 1, false⟩

/-- The empty command schedule. -/
def schedNil : Nat → List ControllerCommand := fun _ => []

/-- A cruising elevator 3 position units below its target. -/
def elevCruising : ElevatorState :=
  ⟨0, ⟨1, 7, 2⟩, ElevatorStatus.constant_speed, ⟨false, false⟩, [], [], 4, 0, Option.none⟩

/-- A stopped elevator carrying passenger 7. -/
def elevStopWitness : ElevatorState :=
  ⟨0, ⟨0, 0, 0⟩, ElevatorStatus.stopped, ⟨false, false⟩, [7], [], 2, 0, Option.none⟩

/-- A passenger table where passenger 7 is on board with destination 0. -/
def tblStopWitness : PassengerTable :=
  [(7, ⟨7, 1, 0, 0, 1, 0, some 0⟩)]

/-- Claim C10: `step(0)` is a no-op at the public interface: it returns an
empty event list and leaves the whole simulation unchanged. -/
theorem step_zero_is_noop : ∀ sim : ElevatorSimulation, stepN sim 0 = (sim, []) :=
  fun _ => rfl

/-- Claim C2: the tick pipeline is deterministic: two runs from equal initial
simulations with equal command schedules, stepped the same number of ticks,
produce identical event logs and identical final metrics. -/
theorem tick_pipeline_deterministic :
    ∀ (s1 s2 : ElevatorSimulation) (sched1 sched2 : Nat → List ControllerCommand)
      (n : Nat), s1 = s2 → sched1 = sched2 →
      (runSimulation s1 sched1 n).1 = (runSimulation s2 sched2 n).1 ∧
      (runSimulation s1 sched1 n).2 = (runSimulation s2 sched2 n).2 := by
  intro s1 s2 sched1 sched2 n h1 h2
  subst h1
  subst h2
  exact ⟨rfl, rfl⟩

/-- Witness for C2 at a concrete simulation and schedule. -/
theorem tick_pipeline_deterministic_witness :
    (runSimulation simSmall schedNil 3).1 = (runSimulation simSmall schedNil 3).1 ∧
    (runSimulation simSmall schedNil 3).2 = (runSimulation simSmall schedNil 3).2 :=
  tick_pipeline_deterministic simSmall simSmall schedNil schedNil 3 rfl rfl

/-- Claim C7: out-of-range commands are silent no-ops: `elevator_go_to_floor`
with an elevator id or floor outside range leaves the simulation unchanged,
and so does `elevator_set_indicators` with an out-of-range elevator id. -/
theorem out_of_range_commands_are_noops :
    ∀ (sim : ElevatorSimulation) (eid fl : Int) (imm : Bool) (up down : Option Bool),
      ((eid < 0 ∨ (sim.state.elevators.length : Int) ≤ eid ∨
        fl < 0 ∨ (sim.state.floors.length : Int) ≤ fl) →
        elevatorGoToFloor sim eid fl imm = sim) ∧
      ((eid < 0 ∨ (sim.state.elevators.length : Int) ≤ eid) →
        elevatorSetIndicators sim eid up down = sim) := by
  intro sim eid fl imm up down
  constructor
  · intro h
    unfold elevatorGoToFloor
    rw [if_neg]
    rintro ⟨h1, h2, h3, h4⟩
    rcases h with h' | h' | h' | h' <;> omega
  · intro h
    unfold elevatorSetIndicators
    rw [if_neg]
    rintro ⟨h1, h2⟩
    rcases h with h' | h' <;> omega

/-- Witness for C7 at concrete out-of-range arguments. -/
theorem out_of_range_commands_are_noops_witness :
    elevatorGoToFloor simSmall 5 0 false = simSmall ∧
    elevatorSetIndicators simSmall (-1) (some true) Option.none = simSmall :=
  ⟨(out_of_range_commands_are_noops simSmall 5 0 false (some true) Option.none).1
     (Or.inr (Or.inl (by decide))),
   (out_of_range_commands_are_noops simSmall (-1) 0 false (some true) Option.none).2
     (Or.inl (by decide))⟩

/-- Claim C6: per-tick speed is a function of the run state (accelerating and
decelerating move 1 unit, cruising 2, stopped 0), and a cruising elevator not
already exactly at its target switches to decelerating exactly when its
remaining distance, in sub-floor units, is at most 3. -/
theorem movement_speed_by_state_and_decel_threshold :
    ∀ e : ElevatorState,
      (e.run_status = ElevatorStatus.start_up → getMovementSpeed e = 1) ∧
      (e.run_status = ElevatorStatus.start_down → getMovementSpeed e = 1) ∧
      (e.run_status = ElevatorStatus.constant_speed → getMovementSpeed e = 2) ∧
      (e.run_status = ElevatorStatus.stopped → getMovementSpeed e = 0) ∧
      (e.run_status = ElevatorStatus.constant_speed →
        ¬(e.position.current_floor = e.target_floor ∧ e.position.floor_up_position = 0) →
        ((updateElevatorStatus e).run_status = ElevatorStatus.start_down ↔
          calculateDistanceToTarget e ≤ 3)) := by
  intro e
  refine ⟨?_, ?_, ?_, ?_, ?_⟩
  · intro h; simp [getMovementSpeed, h]
  · intro h; simp [getMovementSpeed, h]
  · intro h; simp [getMovementSpeed, h]
  · intro h; simp [getMovementSpeed, h]
  · intro h hne
    unfold updateElevatorStatus
    rw [if_neg hne, h]
    by_cases hd : calculateDistanceToTarget e ≤ 3
    · simp [shouldStartDeceleration, hd]
    · simp [shouldStartDeceleration, hd, h]

/-- Witness for C6 at a cruising elevator 3 units from target. -/
theorem movement_speed_witness :
    getMovementSpeed elevCruising = 2 ∧
    ((updateElevatorStatus elevCruising).run_status = ElevatorStatus.start_down ↔
      calculateDistanceToTarget elevCruising ≤ 3) :=
  ⟨(movement_speed_by_state_and_decel_threshold elevCruising).2.2.1 rfl,
   (movement_speed_by_state_and_decel_threshold elevCruising).2.2.2.2 rfl (by decide)⟩

/-- Claim C3 (code bug): `step` reaches the duration cutoff holding the
simulation's non-reentrant lock and `force_complete_remaining_passengers`
re-acquires it, so the cutoff tick deadlocks instead of force-completing the
waiting passenger: the lock-aware step never returns. -/
theorem duration_cutoff_deadlocks : stepLockedAux simDeadlockInput 1 = Option.none := by
  rfl

/-- Claim C8 counterexample: `reset()` does not restore the loaded traffic
case: from a simulation with one pending traffic entry and duration 100,
reset empties the pending queue and zeroes the maximum duration. -/
theorem reset_clears_loaded_traffic_case :
    (resetSim simLoadedCase).traffic_queue = [] ∧ simLoadedCase.traffic_queue ≠ [] ∧
    (resetSim simLoadedCase).max_duration_ticks = 0 ∧
    simLoadedCase.max_duration_ticks = 100 := by
  refine ⟨rfl, ?_, rfl, rfl⟩
  decide

/-- Claim C8 (amended): after `reset()`, the tick counter is 0, elevator and
floor counts and the per-elevator capacity are preserved, every elevator and
floor is in its initial empty configuration, and the passenger table, event
log and pending traffic queue are empty with the duration zeroed, the id
counter at 1 and the one-shot flag cleared; replaying the case requires
reloading the traffic file. -/
theorem reset_reinitializes_empty :
    ∀ sim : ElevatorSimulation,
      (resetSim sim).state.tick = 0 ∧
      (resetSim sim).state.elevators.length = sim.state.elevators.length ∧
      (resetSim sim).state.floors.length = sim.state.floors.length ∧
      (∀ e ∈ (resetSim sim).state.elevators,
        e.passengers = [] ∧ e.run_status = ElevatorStatus.stopped ∧
        e.position = ⟨0, 0, 0⟩ ∧ e.indicators = ⟨false, false⟩ ∧
        e.max_capacity = firstCapacity sim.state.elevators) ∧
      (∀ f ∈ (resetSim sim).state.floors, f.up_queue = [] ∧ f.down_queue = []) ∧
      (resetSim sim).state.passengers = [] ∧
      (resetSim sim).state.events = [] ∧
      (resetSim sim).traffic_queue = [] ∧
      (resetSim sim).max_duration_ticks = 0 ∧
      (resetSim sim).next_passenger_id = 1 ∧
      (resetSim sim).force_completed = false := by
  intro sim
  refine ⟨rfl, ?_, ?_, ?_, ?_, rfl, rfl, rfl, rfl, rfl, rfl⟩
  · simp [resetSim, create_empty_simulation_state]
  · simp [resetSim, create_empty_simulation_state]
  · intro e he
    simp only [resetSim, create_empty_simulation_state, List.mem_map] at he
    obtain ⟨i, _, rfl⟩ := he
    exact ⟨rfl, rfl, rfl, rfl, rfl⟩
  · intro f hf
    simp only [resetSim, create_empty_simulation_state, List.mem_map] at hf
    obtain ⟨i, _, rfl⟩ := hf
    exact ⟨rfl, rfl⟩

/-- Witness for the amended C8 at a concrete loaded simulation. -/
theorem reset_reinitializes_empty_witness :
    (resetSim simLoadedCase).state.tick = 0 ∧
    (resetSim simLoadedCase).traffic_queue = [] ∧
    (resetSim simLoadedCase).max_duration_ticks = 0 := by
  have h := reset_reinitializes_empty simLoadedCase
  exact ⟨h.1, h.2.2.2.2.2.2.2.1, h.2.2.2.2.2.2.2.2.1⟩

/-- Claim C9 counterexample: from a reachable state in which both lamps were
switched on through the public command surface, the stop-resolution phase
processes a stopped elevator's boarding with both indicators set (and boards
passenger 1), so mutual exclusion does not hold at boarding time. -/
theorem boarding_processed_with_both_indicators :
    (simBothIndMid.state.elevators.getD 0 defaultElevator).run_status =
      ElevatorStatus.stopped ∧
    (simBothIndMid.state.elevators.getD 0 defaultElevator).indicators.up = true ∧
    (simBothIndMid.state.elevators.getD 0 defaultElevator).indicators.down = true ∧
    (⟨1, EventType.passenger_board, edElevFloorPass 0 0 1⟩ : SimulationEvent) ∈
      (stopsPhase simBothIndMid).state.events ∧
    (⟨1, EventType.passenger_board, edElevFloorPass 0 0 1⟩ : SimulationEvent) ∈
      (stepN simBothIndSet 1).2 := by
  refine ⟨rfl, rfl, rfl, ?_, ?_⟩ <;> decide

/-- Claim C9 (amended): the engine's own direction-commitment step never
lights both lamps: when a stopped elevator enters boarding with both
indicators clear, after commitment at most one indicator is set; both lamps
can only be lit simultaneously by external `elevator_set_indicators`
commands, against which the engine does not enforce exclusivity. -/
theorem commit_sets_exclusive_indicators :
    ∀ e : ElevatorState, e.indicators.up = false → e.indicators.down = false →
      ¬((stopCommit e).indicators.up = true ∧ (stopCommit e).indicators.down = true) := by
  intro e hu hd
  unfold stopCommit
  rw [if_pos ⟨hu, hd⟩]
  cases hnt : e.next_target_floor <;>
    · simp only [setDirection]
      rintro ⟨h1, h2⟩
      rw [beq_iff_eq] at h1 h2
      rw [h1] at h2
      exact Direction.noConfusion h2

/-- Witness for the amended C9 at a concrete elevator with cleared lamps. -/
theorem commit_sets_exclusive_indicators_witness :
    ¬((stopCommit defaultElevator).indicators.up = true ∧
      (stopCommit defaultElevator).indicators.down = true) :=
  commit_sets_exclusive_indicators defaultElevator rfl rfl

/-- Claim C4 counterexample: at tick 0 with an injected waiting passenger,
`force_complete_remaining_passengers` stamps `dropoff_tick` to 0, which still
reads as unset, so the second consecutive call completes 1 passenger again
instead of 0. -/
theorem force_complete_second_call_nonzero_at_tick_zero :
    (forceCompleteSim (forceCompleteSim simTickZeroInjected).1).2 ≠ 0 := by
  decide

theorem pget_pmodify_ne (tbl : PassengerTable) (q r : Nat)
    (f : PassengerInfo → PassengerInfo) (h : r ≠ q) :
    pget (pmodify tbl q f) r = pget tbl r := by
  induction tbl with
  | nil => rfl
  | cons kp rest ih =>
    obtain ⟨k, p⟩ := kp
    show pget ((if k = q then (k, f p) else (k, p)) :: pmodify rest q f) r = _
    by_cases hk : k = q
    · have hkr : ¬k = r := fun hh => h (hh ▸ hk)
      rw [if_pos hk]
      show (if k = r then f p else pget (pmodify rest q f) r) =
        (if k = r then p else pget rest r)
      rw [if_neg hkr, if_neg hkr, ih]
    · rw [if_neg hk]
      show (if k = r then p else pget (pmodify rest q f) r) =
        (if k = r then p else pget rest r)
      by_cases hkr : k = r
      · rw [if_pos hkr, if_pos hkr]
      · rw [if_neg hkr, if_neg hkr, ih]

theorem pget_pmodify_self (tbl : PassengerTable) (q : Nat)
    (f : PassengerInfo → PassengerInfo) (h : pmemb tbl q = true) :
    pget (pmodify tbl q f) q = f (pget tbl q) := by
  induction tbl with
  | nil => simp [pmemb] at h
  | cons kp rest ih =>
    obtain ⟨k, p⟩ := kp
    by_cases hk : k = q
    · show pget ((if k = q then (k, f p) else (k, p)) :: pmodify rest q f) q = _
      rw [if_pos hk]
      show (if k = q then f p else pget (pmodify rest q f) q) =
        f (if k = q then p else pget rest q)
      rw [if_pos hk, if_pos hk]
    · have h2 : (k == q || pmemb rest q) = true := h
      have hbq : (k == q) = false := by simpa using hk
      rw [hbq, Bool.false_or] at h2
      show pget ((if k = q then (k, f p) else (k, p)) :: pmodify rest q f) q = _
      rw [if_neg hk]
      show (if k = q then p else pget (pmodify rest q f) q) =
        f (if k = q then p else pget rest q)
      rw [if_neg hk, if_neg hk, ih h2]

theorem pmodify_of_not_memb (tbl : PassengerTable) (q : Nat)
    (f : PassengerInfo → PassengerInfo) (h : pmemb tbl q = false) :
    pmodify tbl q f = tbl := by
  induction tbl with
  | nil => rfl
  | cons kp rest ih =>
    obtain ⟨k, p⟩ := kp
    have h2 : (k == q || pmemb rest q) = false := h
    rw [Bool.or_eq_false_iff] at h2
    obtain ⟨hk, hrest⟩ := h2
    show (if k = q then (k, f p) else (k, p)) :: pmodify rest q f = (k, p) :: rest
    rw [if_neg (by simpa using hk), ih hrest]

theorem pmemb_pmodify (tbl : PassengerTable) (q r : Nat)
    (f : PassengerInfo → PassengerInfo) :
    pmemb (pmodify tbl q f) r = pmemb tbl r := by
  induction tbl with
  | nil => rfl
  | cons kp rest ih =>
    obtain ⟨k, p⟩ := kp
    by_cases hk : k = q
    · show pmemb ((if k = q then (k, f p) else (k, p)) :: pmodify rest q f) r = _
      rw [if_pos hk]
      show (k == r || pmemb (pmodify rest q f) r) = (k == r || pmemb rest r)
      rw [ih]
    · show pmemb ((if k = q then (k, f p) else (k, p)) :: pmodify rest q f) r = _
      rw [if_neg hk]
      show (k == r || pmemb (pmodify rest q f) r) = (k == r || pmemb rest r)
      rw [ih]

/-- Stability of a projection under an in-place update that preserves it. -/
theorem pget_pmodify_proj {α : Type} (g : PassengerInfo → α) (tbl : PassengerTable)
    (q r : Nat) (f : PassengerInfo → PassengerInfo) (hf : ∀ p, g (f p) = g p) :
    g (pget (pmodify tbl q f) r) = g (pget tbl r) := by
  by_cases h : r = q
  · subst h
    by_cases hm : pmemb tbl r = true
    · rw [pget_pmodify_self tbl r f hm, hf]
    · rw [pmodify_of_not_memb tbl r f (by simpa using hm)]
  · rw [pget_pmodify_ne tbl q r f h]

/-- The dropoff-stamping fold of `force_complete_remaining_passengers` acts
entrywise: an entry is stamped exactly when its key is in the list. -/
theorem stampFold_eq_map (t : Nat) (l : List Nat) (tbl : PassengerTable) :
    l.foldl (fun tb pid => pmodify tb pid (fun p => { p with dropoff_tick := t })) tbl =
      tbl.map (fun kp =>
        if kp.1 ∈ l then (kp.1, { kp.2 with dropoff_tick := t }) else kp) := by
  induction l generalizing tbl with
  | nil => simp
  | cons q l' ih =>
    show l'.foldl _ (pmodify tbl q _) = _
    rw [ih]
    unfold pmodify
    rw [List.map_map]
    apply List.map_congr_left
    intro kp _
    by_cases hk : kp.1 = q <;> by_cases hl : kp.1 ∈ l' <;>
      simp [Function.comp, hk, hl]

/-- After a force-completion at a nonzero tick, every stored passenger has a
nonzero dropoff stamp. -/
theorem forceComplete_entries_done (sim : ElevatorSimulation) (ht : sim.state.tick ≠ 0) :
    ∀ kp ∈ (forceCompleteSim sim).1.state.passengers, kp.2.dropoff_tick ≠ 0 := by
  intro kp hkp
  have hchar : (forceCompleteSim sim).1.state.passengers =
      ((sim.state.passengers.filter (fun kp => kp.2.dropoff_tick == 0)).map Prod.fst).foldl
        (fun tb pid => pmodify tb pid (fun p => { p with dropoff_tick := sim.state.tick }))
        sim.state.passengers := rfl
  rw [hchar, stampFold_eq_map] at hkp
  obtain ⟨kp0, hmem, rfl⟩ := List.mem_map.mp hkp
  by_cases hc : kp0.1 ∈
      (sim.state.passengers.filter (fun kp => kp.2.dropoff_tick == 0)).map Prod.fst
  · rw [if_pos hc]
    simpa using ht
  · rw [if_neg hc]
    intro h0
    exact hc (List.mem_map.mpr ⟨kp0, List.mem_filter.mpr ⟨hmem, by simp [h0]⟩, rfl⟩)

theorem filter_not_contains_nil_nat (l : List Nat) :
    l.filter (fun pid => !(([] : List Nat).contains pid)) = l := by
  induction l with
  | nil => rfl
  | cons a l ih =>
    rw [List.filter_cons_of_pos rfl, ih]

theorem filter_not_contains_nil_pair (l : List (Nat × Nat)) :
    l.filter (fun kd => !(([] : List Nat).contains kd.1)) = l := by
  induction l with
  | nil => rfl
  | cons a l ih =>
    rw [List.filter_cons_of_pos rfl, ih]

/-- If every stored passenger already has a dropoff stamp,
`force_complete_remaining_passengers` completes nobody and does not change
the simulation. -/
theorem forceComplete_fixpoint (sim : ElevatorSimulation)
    (h : ∀ kp ∈ sim.state.passengers, kp.2.dropoff_tick ≠ 0) :
    forceCompleteSim sim = (sim, 0) := by
  have htc : sim.state.passengers.filter (fun kp => kp.2.dropoff_tick == 0) = [] := by
    rw [List.filter_eq_nil_iff]
    intro kp hkp
    simpa using h kp hkp
  unfold forceCompleteSim
  rw [htc]
  simp only [List.map_nil, List.foldl_nil, List.length_nil,
    filter_not_contains_nil_nat, filter_not_contains_nil_pair]
  have he : sim.state.elevators.map (fun e =>
      { e with passengers := e.passengers
             , passenger_destinations := e.passenger_destinations }) =
      sim.state.elevators := by
    rw [show (fun (e : ElevatorState) =>
      { e with passengers := e.passengers
             , passenger_destinations := e.passenger_destinations }) = fun e => e
      from funext (fun e => by cases e; rfl)]
    exact List.map_id _
  have hf : sim.state.floors.map (fun f =>
      { f with up_queue := f.up_queue, down_queue := f.down_queue }) =
      sim.state.floors := by
    rw [show (fun (f : FloorState) =>
      { f with up_queue := f.up_queue, down_queue := f.down_queue }) = fun f => f
      from funext (fun f => by cases f; rfl)]
    exact List.map_id _
  rw [he, hf]

/-- Claim C4 (amended): from any simulation whose tick counter is nonzero (as
holds whenever at least one tick has been stepped),
`force_complete_remaining_passengers` is idempotent: the second of two
consecutive calls completes 0 passengers and leaves the state unchanged.  (At
tick 0 the stamp `dropoff_tick := 0` still reads as unset, so the property
fails there.) -/
theorem force_complete_idempotent_pos_tick :
    ∀ sim : ElevatorSimulation, sim.state.tick ≠ 0 →
      (forceCompleteSim (forceCompleteSim sim).1).1 = (forceCompleteSim sim).1 ∧
      (forceCompleteSim (forceCompleteSim sim).1).2 = 0 := by
  intro sim ht
  have hdone := forceComplete_entries_done sim ht
  have h2 := forceComplete_fixpoint (forceCompleteSim sim).1 hdone
  exact ⟨by rw [h2], by rw [h2]⟩

/-- Witness for the amended C4 at a concrete simulation at tick 1. -/
theorem force_complete_idempotent_witness :
    (forceCompleteSim (forceCompleteSim simPosTick).1).1 = (forceCompleteSim simPosTick).1 ∧
    (forceCompleteSim (forceCompleteSim simPosTick).1).2 = 0 :=
  force_complete_idempotent_pos_tick simPosTick (by decide)

theorem length_foldl_erase (l L : List Nat) : (l.foldl List.erase L).length ≤ L.length := by
  induction l generalizing L with
  | nil => exact le_refl _
  | cons a l ih =>
    calc (l.foldl List.erase (L.erase a)).length ≤ (L.erase a).length := ih _
      _ ≤ L.length := (List.erase_sublist a L).length_le

theorem pyTake_length_le {α : Type} (k : Int) (hk : 0 ≤ k) (l : List α) :
    ((pyTake k l).length : Int) ≤ k := by
  unfold pyTake
  rw [if_pos hk, List.length_take]
  have h1 : min k.toNat l.length ≤ k.toNat := Nat.min_le_left _ _
  have h2 := Int.toNat_of_nonneg hk
  omega

theorem stopCommit_fields (e : ElevatorState) :
    (stopCommit e).passengers = e.passengers ∧
    (stopCommit e).max_capacity = e.max_capacity := by
  unfold stopCommit
  by_cases hc : e.indicators.up = false ∧ e.indicators.down = false
  · rw [if_pos hc]
    cases hnt : e.next_target_floor <;> exact ⟨rfl, rfl⟩
  · rw [if_neg hc]
    exact ⟨rfl, rfl⟩

theorem updateElevatorStatus_fields (e : ElevatorState) :
    (updateElevatorStatus e).passengers = e.passengers ∧
    (updateElevatorStatus e).position = e.position ∧
    (updateElevatorStatus e).max_capacity = e.max_capacity := by
  unfold updateElevatorStatus
  by_cases hc : e.position.current_floor = e.target_floor ∧ e.position.floor_up_position = 0
  · rw [if_pos hc]
    exact ⟨rfl, rfl, rfl⟩
  · rw [if_neg hc]
    cases hs : e.run_status
    · exact ⟨rfl, rfl, rfl⟩
    · exact ⟨rfl, rfl, rfl⟩
    · by_cases hd : shouldStartDeceleration e = true
      · rw [if_pos hd]
        exact ⟨rfl, rfl, rfl⟩
      · rw [if_neg hd]
        exact ⟨rfl, rfl, rfl⟩
    · exact ⟨rfl, rfl, rfl⟩

theorem moveOne_fields (tick : Nat) (e : ElevatorState) :
    (moveOneElevator tick e).1.passengers = e.passengers ∧
    (moveOneElevator tick e).1.max_capacity = e.max_capacity := by
  have hu := updateElevatorStatus_fields e
  simp only [moveOneElevator]
  split_ifs <;> first
    | exact ⟨rfl, rfl⟩
    | exact ⟨hu.1, hu.2.2⟩

theorem stopBoardUp_len (e : ElevatorState) (fl : FloorState)
    (h : e.passengers.length ≤ e.max_capacity) :
    ((stopBoardUp e fl).1.length : Int) ≤
      (e.max_capacity : Int) - (e.passengers.length : Int) := by
  have hnn : (0 : Int) ≤ (e.max_capacity : Int) - (e.passengers.length : Int) := by
    omega
  simp only [stopBoardUp]
  split_ifs
  · exact pyTake_length_le _ hnn _
  · simpa using hnn

theorem stopBoardDown_len (e : ElevatorState) (upCount : Nat) (fl1 : FloorState)
    (h : (upCount : Int) ≤ (e.max_capacity : Int) - (e.passengers.length : Int)) :
    ((stopBoardDown e upCount fl1).1.length : Int) ≤
      (e.max_capacity : Int) - (e.passengers.length : Int) - (upCount : Int) := by
  simp only [stopBoardDown]
  split_ifs with hd
  · exact pyTake_length_le _ (le_of_lt hd.2) _
  · simp only [List.length_nil]
    omega

theorem stopBoardSelect_bound (e : ElevatorState) (fl : FloorState)
    (h : e.passengers.length ≤ e.max_capacity) :
    e.passengers.length + ((stopBoardSelect e fl).1.length +
      (stopBoardSelect e fl).2.1.length) ≤ e.max_capacity := by
  have hu := stopBoardUp_len e fl h
  have hd := stopBoardDown_len e (stopBoardUp e fl).1.length (stopBoardUp e fl).2 hu
  have h1 : (stopBoardSelect e fl).1 = (stopBoardUp e fl).1 := rfl
  have h2 : (stopBoardSelect e fl).2.1 =
      (stopBoardDown e (stopBoardUp e fl).1.length (stopBoardUp e fl).2).1 := rfl
  rw [h1, h2]
  omega

theorem processOneStop_capacity (tick : Nat) (floors : List FloorState)
    (tbl : PassengerTable) (evs : List SimulationEvent) (e : ElevatorState)
    (h : e.passengers.length ≤ e.max_capacity) :
    (processOneStop tick floors tbl evs e).1.passengers.length ≤
      (processOneStop tick floors tbl evs e).1.max_capacity := by
  unfold processOneStop
  by_cases hs : e.run_status = ElevatorStatus.stopped
  · rw [if_pos hs]
    have hlen1 : (stopAlight tick tbl e).2.1.passengers.length ≤ e.passengers.length := by
      show ((collectAlight tick e.position.current_floor e.passengers tbl).2.foldl
        List.erase e.passengers).length ≤ e.passengers.length
      exact length_foldl_erase _ _
    set a := stopAlight tick tbl e with ha
    set e2 := stopCommit a.2.1 with he2
    have hp2 : e2.passengers = a.2.1.passengers := (stopCommit_fields _).1
    have hc2 : e2.max_capacity = e.max_capacity := by
      rw [(stopCommit_fields _).2]
      rfl
    have h2 : e2.passengers.length ≤ e2.max_capacity := by
      rw [hp2, hc2]
      exact le_trans hlen1 h
    have hb := stopBoardSelect_bound e2
      (floors.getD e.position.current_floor defaultFloor) h2
    by_cases hidle : e2.indicators.up = false ∧ e2.indicators.down = false
    · rw [if_pos hidle]
      exact h2
    · rw [if_neg hidle]
      show (e2.passengers ++
        ((stopBoardSelect e2 (floors.getD e.position.current_floor defaultFloor)).1 ++
         (stopBoardSelect e2 (floors.getD e.position.current_floor defaultFloor)).2.1)).length ≤
        e2.max_capacity
      rw [List.length_append, List.length_append]
      omega
  · rw [if_neg hs]
    exact h

theorem processStopsList_capacity (tick : Nat) :
    ∀ (es : List ElevatorState) (floors : List FloorState) (tbl : PassengerTable)
      (evs : List SimulationEvent),
      (∀ e ∈ es, e.passengers.length ≤ e.max_capacity) →
      ∀ e' ∈ (processStopsList tick es floors tbl evs).1,
        e'.passengers.length ≤ e'.max_capacity := by
  intro es
  induction es with
  | nil =>
    intro floors tbl evs h e' he'
    simp [processStopsList] at he'
  | cons e rest ih =>
    intro floors tbl evs h e' he'
    have hchar : (processStopsList tick (e :: rest) floors tbl evs).1 =
        (processOneStop tick floors tbl evs e).1 ::
        (processStopsList tick rest (processOneStop tick floors tbl evs e).2.1
          (processOneStop tick floors tbl evs e).2.2.1
          (processOneStop tick floors tbl evs e).2.2.2).1 := rfl
    rw [hchar] at he'
    rcases List.mem_cons.mp he' with rfl | hmem
    · exact processOneStop_capacity tick floors tbl evs e (h e (List.mem_cons_self e rest))
    · exact ih _ _ _ (fun x hx => h x (List.mem_cons_of_mem e hx)) e' hmem

theorem moveList_capacity (tick : Nat) :
    ∀ (es : List ElevatorState),
      (∀ e ∈ es, e.passengers.length ≤ e.max_capacity) →
      ∀ e' ∈ (moveList tick es).1, e'.passengers.length ≤ e'.max_capacity := by
  intro es
  induction es with
  | nil =>
    intro h e' he'
    simp [moveList] at he'
  | cons e rest ih =>
    intro h e' he'
    have hchar : (moveList tick (e :: rest)).1 =
        (moveOneElevator tick e).1 :: (moveList tick rest).1 := rfl
    rw [hchar] at he'
    rcases List.mem_cons.mp he' with rfl | hmem
    · have hf := moveOne_fields tick e
      rw [hf.1, hf.2]
      exact h e (List.mem_cons_self e rest)
    · exact ih (fun x hx => h x (List.mem_cons_of_mem e hx)) e' hmem

theorem processArrivalsAux_elevators :
    ∀ (q : List TrafficEntry) (st : SimulationState),
      (processArrivalsAux q st).2.elevators = st.elevators := by
  intro q
  induction q with
  | nil => intro st; rfl
  | cons te rest ih =>
    intro st
    unfold processArrivalsAux
    by_cases h : te.tick ≤ st.tick
    · rw [if_pos h]
      rw [ih]
      by_cases hdir : te.destination > te.origin
      · rw [if_pos hdir]
        rfl
      · rw [if_neg hdir]
        rfl
    · rw [if_neg h]

theorem arrivalsPhase_capacity (sim : ElevatorSimulation)
    (h : capacityInvariant sim) : capacityInvariant (arrivalsPhase sim) := by
  intro e he
  have hchar : (arrivalsPhase sim).state.elevators =
      (processArrivalsAux sim.traffic_queue sim.state).2.elevators := rfl
  rw [hchar, processArrivalsAux_elevators] at he
  exact h e he

theorem movePhase_capacity (sim : ElevatorSimulation)
    (h : capacityInvariant sim) : capacityInvariant (movePhase sim) := by
  intro e he
  have hchar : (movePhase sim).state.elevators =
      (moveList sim.state.tick sim.state.elevators).1 := rfl
  rw [hchar] at he
  exact moveList_capacity _ _ h e he

theorem stopsPhase_capacity (sim : ElevatorSimulation)
    (h : capacityInvariant sim) : capacityInvariant (stopsPhase sim) := by
  intro e he
  have hchar : (stopsPhase sim).state.elevators =
      (processStopsList sim.state.tick sim.state.elevators sim.state.floors
        sim.state.passengers sim.state.events).1 := rfl
  rw [hchar] at he
  exact processStopsList_capacity _ _ _ _ _ h e he

theorem forceComplete_capacity (sim : ElevatorSimulation)
    (h : capacityInvariant sim) : capacityInvariant (forceCompleteSim sim).1 := by
  intro e' he'
  obtain ⟨e, hmem, he⟩ := List.mem_map.mp
    (show e' ∈ sim.state.elevators.map _ from he')
  rw [← he]
  exact le_trans (List.length_filter_le _ _) (h e hmem)

theorem goToFloor_capacity (sim : ElevatorSimulation) (eid fl : Int) (imm : Bool)
    (h : capacityInvariant sim) :
    capacityInvariant (elevatorGoToFloor sim eid fl imm) := by
  simp only [elevatorGoToFloor]
  split_ifs with hc himm
  · cases hg : sim.state.elevators.get? eid.toNat with
    | none => exact h
    | some e =>
      intro x hx
      rcases List.mem_or_eq_of_mem_set
          (show x ∈ sim.state.elevators.set eid.toNat _ from hx) with hmem | rfl
      · exact h x hmem
      · exact h e (List.get?_mem hg)
  · cases hg : sim.state.elevators.get? eid.toNat with
    | none => exact h
    | some e =>
      intro x hx
      rcases List.mem_or_eq_of_mem_set
          (show x ∈ sim.state.elevators.set eid.toNat _ from hx) with hmem | rfl
      · exact h x hmem
      · exact h e (List.get?_mem hg)
  · exact h

theorem setIndicators_capacity (sim : ElevatorSimulation) (eid : Int)
    (up down : Option Bool) (h : capacityInvariant sim) :
    capacityInvariant (elevatorSetIndicators sim eid up down) := by
  simp only [elevatorSetIndicators]
  split_ifs with hc
  · cases hg : sim.state.elevators.get? eid.toNat with
    | none => exact h
    | some e =>
      intro x hx
      rcases List.mem_or_eq_of_mem_set
          (show x ∈ sim.state.elevators.set eid.toNat _ from hx) with hmem | rfl
      · exact h x hmem
      · exact h e (List.get?_mem hg)
  · exact h

theorem reset_capacity (sim : ElevatorSimulation) :
    capacityInvariant (resetSim sim) := by
  intro e he
  have hchar : (resetSim sim).state.elevators =
      (List.range sim.state.elevators.length).map (fun i =>
        (⟨i, ⟨0, 0, 0⟩, ElevatorStatus.stopped, ⟨false, false⟩, [], [],
          firstCapacity sim.state.elevators, 0, Option.none⟩ : ElevatorState)) := rfl
  rw [hchar] at he
  obtain ⟨i, _, rfl⟩ := List.mem_map.mp he
  exact Nat.zero_le _

theorem addPassenger_capacity (sim : ElevatorSimulation) (o d : Nat)
    (h : capacityInvariant sim) :
    capacityInvariant (addPassengerSim sim o d).1 := by
  intro e he
  have hchar : (addPassengerSim sim o d).1.state.elevators = sim.state.elevators := by
    simp only [addPassengerSim]
    split_ifs <;> rfl
  rw [hchar] at he
  exact h e he

theorem stepOne_capacity (sim : ElevatorSimulation) (h : capacityInvariant sim) :
    capacityInvariant (stepOne sim).1 := by
  have h0 : capacityInvariant
      { sim with state := { sim.state with tick := sim.state.tick + 1 } } := h
  have h1 := stopsPhase_capacity _ (movePhase_capacity _ (arrivalsPhase_capacity _ h0))
  simp only [stepOne]
  split_ifs with hc
  · intro e he
    exact forceComplete_capacity _ h1 e he
  · exact h1

theorem stepN_capacity (sim : ElevatorSimulation) (n : Nat)
    (h : capacityInvariant sim) : capacityInvariant (stepN sim n).1 := by
  induction n generalizing sim with
  | zero => exact h
  | succ n ih =>
    have hchar : (stepN sim (n + 1)).1 = (stepN (stepOne sim).1 n).1 := rfl
    rw [hchar]
    exact ih _ (stepOne_capacity sim h)

/-- Claim C1: in every reachable simulation state the number of onboard
passenger ids of every elevator is at most its capacity: boarding pulls at
most `capacity - onboard` from the up queue and at most the remaining
capacity from the down queue, and no other operation grows a car. -/
theorem elevators_never_exceed_capacity :
    ∀ sim : ElevatorSimulation, Reachable sim → capacityInvariant sim := by
  intro sim h
  induction h with
  | loaded ne nf cap queue maxd nid =>
    intro e he
    have hchar : (⟨create_empty_simulation_state ne nf cap, queue, maxd, nid, false⟩ :
        ElevatorSimulation).state.elevators =
        (List.range ne).map (fun i =>
          (⟨i, ⟨0, 0, 0⟩, ElevatorStatus.stopped, ⟨false, false⟩, [], [], cap, 0,
            Option.none⟩ : ElevatorState)) := rfl
    rw [hchar] at he
    obtain ⟨i, _, rfl⟩ := List.mem_map.mp he
    exact Nat.zero_le _
  | step s n _ ih => exact stepN_capacity s n ih
  | goTo s eid fl imm _ ih => exact goToFloor_capacity s eid fl imm ih
  | setInd s eid u d _ ih => exact setIndicators_capacity s eid u d ih
  | reset s _ _ => exact reset_capacity s
  | force s _ ih => exact forceComplete_capacity s ih
  | add s o d _ ih => exact addPassenger_capacity s o d ih

/-- Witness for C1 at a concrete freshly loaded simulation. -/
theorem elevators_never_exceed_capacity_witness :
    capacityInvariant ⟨create_empty_simulation_state 2 3 5, [], 10, 1, false⟩ :=
  elevators_never_exceed_capacity _ (Reachable.loaded 2 3 5 [] 10 1)

theorem collectAlight_cons (tick cf pid : Nat) (rest : List Nat) (tbl : PassengerTable) :
    collectAlight tick cf (pid :: rest) tbl =
      if (pget tbl pid).destination = cf then
        ((collectAlight tick cf rest
            (pmodify tbl pid (fun p => { p with dropoff_tick := tick }))).1,
         pid :: (collectAlight tick cf rest
            (pmodify tbl pid (fun p => { p with dropoff_tick := tick }))).2)
      else collectAlight tick cf rest tbl := rfl

theorem collectAlight_dest (tick cf : Nat) :
    ∀ (l : List Nat) (tbl : PassengerTable) (r : Nat),
      (pget (collectAlight tick cf l tbl).1 r).destination = (pget tbl r).destination := by
  intro l
  induction l with
  | nil => intro tbl r; rfl
  | cons pid rest ih =>
    intro tbl r
    rw [collectAlight_cons]
    split_ifs with hdest
    · show (pget (collectAlight tick cf rest
        (pmodify tbl pid (fun p => { p with dropoff_tick := tick }))).1 r).destination = _
      rw [ih]
      exact pget_pmodify_proj PassengerInfo.destination tbl pid r _ (fun p => rfl)
    · exact ih tbl r

theorem collectAlight_keeps_stamp (tick cf : Nat) :
    ∀ (l : List Nat) (tbl : PassengerTable) (pid : Nat),
      (pget tbl pid).dropoff_tick = tick →
      (pget (collectAlight tick cf l tbl).1 pid).dropoff_tick = tick := by
  intro l
  induction l with
  | nil => intro tbl pid h; exact h
  | cons q rest ih =>
    intro tbl pid h
    rw [collectAlight_cons]
    split_ifs with hdest
    · show (pget (collectAlight tick cf rest
        (pmodify tbl q (fun p => { p with dropoff_tick := tick }))).1 pid).dropoff_tick = tick
      apply ih
      by_cases hq : pid = q
      · subst hq
        by_cases hmm : pmemb tbl pid = true
        · rw [pget_pmodify_self tbl pid _ hmm]
        · rw [pmodify_of_not_memb tbl pid _ (by simpa using hmm)]
          exact h
      · rw [pget_pmodify_ne tbl q pid _ hq]
        exact h
    · exact ih tbl pid h

theorem collectAlight_stamps (tick cf : Nat) :
    ∀ (l : List Nat) (tbl : PassengerTable) (pid : Nat),
      pid ∈ l → pmemb tbl pid = true → (pget tbl pid).destination = cf →
      (pget (collectAlight tick cf l tbl).1 pid).dropoff_tick = tick := by
  intro l
  induction l with
  | nil =>
    intro tbl pid h
    simp at h
  | cons q rest ih =>
    intro tbl pid hmem hm hdest
    rw [collectAlight_cons]
    by_cases hq : pid = q
    · subst hq
      rw [if_pos hdest]
      show (pget (collectAlight tick cf rest
        (pmodify tbl pid (fun p => { p with dropoff_tick := tick }))).1 pid).dropoff_tick = tick
      apply collectAlight_keeps_stamp
      rw [pget_pmodify_self tbl pid _ hm]
    · have hrest : pid ∈ rest := by
        rcases List.mem_cons.mp hmem with h' | h'
        · exact absurd h' hq
        · exact h'
      split_ifs with hdq
      · show (pget (collectAlight tick cf rest
          (pmodify tbl q (fun p => { p with dropoff_tick := tick }))).1 pid).dropoff_tick = tick
        apply ih _ pid hrest
        · rw [pmemb_pmodify]
          exact hm
        · rw [pget_pmodify_proj PassengerInfo.destination tbl q pid
            (fun p => { p with dropoff_tick := tick }) (fun p => rfl)]
          exact hdest
      · exact ih tbl pid hrest hm hdest

theorem collectAlight_snd (tick cf : Nat) :
    ∀ (l : List Nat) (tbl : PassengerTable),
      (collectAlight tick cf l tbl).2 =
        l.filter (fun pid => (pget tbl pid).destination == cf) := by
  intro l
  induction l with
  | nil => intro tbl; rfl
  | cons pid rest ih =>
    intro tbl
    rw [collectAlight_cons]
    by_cases hdest : (pget tbl pid).destination = cf
    · rw [if_pos hdest]
      show pid :: (collectAlight tick cf rest
        (pmodify tbl pid (fun p => { p with dropoff_tick := tick }))).2 = _
      rw [ih, List.filter_cons, if_pos (beq_iff_eq.mpr hdest)]
      have hcongr : rest.filter (fun pid' =>
          (pget (pmodify tbl pid (fun p => { p with dropoff_tick := tick }))
            pid').destination == cf) =
          rest.filter (fun pid' => (pget tbl pid').destination == cf) := by
        apply List.filter_congr
        intro x _
        rw [pget_pmodify_proj PassengerInfo.destination tbl pid x
          (fun p => { p with dropoff_tick := tick }) (fun p => rfl)]
      rw [hcongr]
    · rw [if_neg hdest, ih, List.filter_cons,
        if_neg (fun hc => hdest (beq_iff_eq.mp hc))]

theorem foldl_erase_cons_of_ne (l : List Nat) :
    ∀ (x : Nat) (xs : List Nat), (∀ a ∈ l, a ≠ x) →
      l.foldl List.erase (x :: xs) = x :: l.foldl List.erase xs := by
  induction l with
  | nil => intro x xs _; rfl
  | cons a l ih =>
    intro x xs h
    have hax : a ≠ x := h a (List.mem_cons_self a l)
    show l.foldl List.erase ((x :: xs).erase a) = x :: l.foldl List.erase (xs.erase a)
    rw [List.erase_cons_tail (by simpa using fun hh => hax hh.symm)]
    exact ih x (xs.erase a) (fun b hb => h b (List.mem_cons_of_mem a hb))

theorem foldl_erase_filter (p : Nat → Bool) :
    ∀ (l : List Nat), (l.filter p).foldl List.erase l = l.filter (fun x => !(p x)) := by
  intro l
  induction l with
  | nil => rfl
  | cons a l ih =>
    by_cases hpa : p a = true
    · rw [List.filter_cons_of_pos hpa]
      show (l.filter p).foldl List.erase ((a :: l).erase a) = _
      rw [List.erase_cons_head, ih, List.filter_cons,
        if_neg (by simp [hpa])]
    · rw [List.filter_cons_of_neg (by simpa using hpa)]
      rw [foldl_erase_cons_of_ne (l.filter p) a l
        (fun b hb hba => hpa (hba ▸ List.of_mem_filter hb))]
      rw [ih, List.filter_cons, if_pos (by simp [hpa])]

theorem pyTake_subset {α : Type} (k : Int) (l : List α) : pyTake k l ⊆ l := by
  unfold pyTake
  split_ifs <;> exact List.take_subset _ _

theorem stopBoardUp_subset (e : ElevatorState) (fl : FloorState) :
    (stopBoardUp e fl).1 ⊆ fl.up_queue := by
  simp only [stopBoardUp]
  split_ifs
  · exact pyTake_subset _ _
  · exact List.nil_subset _

theorem stopBoardUp_down_queue (e : ElevatorState) (fl : FloorState) :
    (stopBoardUp e fl).2.down_queue = fl.down_queue := by
  simp only [stopBoardUp]
  split_ifs <;> rfl

theorem stopBoardDown_subset (e : ElevatorState) (c : Nat) (fl1 : FloorState) :
    (stopBoardDown e c fl1).1 ⊆ fl1.down_queue := by
  simp only [stopBoardDown]
  split_ifs
  · exact pyTake_subset _ _
  · exact List.nil_subset _

theorem stopBoardSelect_fst_subset (e : ElevatorState) (fl : FloorState) :
    (stopBoardSelect e fl).1 ⊆ fl.up_queue :=
  stopBoardUp_subset e fl

theorem stopBoardSelect_snd_subset (e : ElevatorState) (fl : FloorState) :
    (stopBoardSelect e fl).2.1 ⊆ fl.down_queue := by
  have h : (stopBoardSelect e fl).2.1 =
      (stopBoardDown e (stopBoardUp e fl).1.length (stopBoardUp e fl).2).1 := rfl
  rw [h]
  intro x hx
  have := stopBoardDown_subset e (stopBoardUp e fl).1.length (stopBoardUp e fl).2 hx
  rwa [stopBoardUp_down_queue] at this

theorem boardStamp_keeps_dropoff (tick eid : Nat) :
    ∀ (l : List Nat) (tbl : PassengerTable) (pid : Nat),
      (pget (boardStamp tick eid l tbl) pid).dropoff_tick =
        (pget tbl pid).dropoff_tick := by
  intro l
  induction l with
  | nil => intro tbl pid; rfl
  | cons q rest ih =>
    intro tbl pid
    show (pget (boardStamp tick eid rest (pmodify tbl q
      (fun p => { p with pickup_tick := tick, elevator_id := some eid }))) pid).dropoff_tick = _
    rw [ih]
    exact pget_pmodify_proj (fun p => p.dropoff_tick) tbl q pid
      (fun p => { p with pickup_tick := tick, elevator_id := some eid }) (fun p => rfl)

theorem processOneStop_stopped_idle (tick : Nat) (floors : List FloorState)
    (tbl : PassengerTable) (evs : List SimulationEvent) (e : ElevatorState)
    (hs : e.run_status = ElevatorStatus.stopped)
    (hidle : (stopCommit (stopAlight tick tbl e).2.1).indicators.up = false ∧
      (stopCommit (stopAlight tick tbl e).2.1).indicators.down = false) :
    processOneStop tick floors tbl evs e =
      (stopCommit (stopAlight tick tbl e).2.1,
       floors.set e.position.current_floor
         (stopBoardSelect (stopCommit (stopAlight tick tbl e).2.1)
           (floors.getD e.position.current_floor defaultFloor)).2.2,
       (stopAlight tick tbl e).1,
       evs ++ (stopAlight tick tbl e).2.2 ++
         [⟨tick, EventType.idle, edElevFloor e.id e.position.current_floor⟩]) := by
  simp only [processOneStop]
  rw [if_pos hs, if_pos hidle]

theorem processOneStop_stopped_board (tick : Nat) (floors : List FloorState)
    (tbl : PassengerTable) (evs : List SimulationEvent) (e : ElevatorState)
    (hs : e.run_status = ElevatorStatus.stopped)
    (hidle : ¬((stopCommit (stopAlight tick tbl e).2.1).indicators.up = false ∧
      (stopCommit (stopAlight tick tbl e).2.1).indicators.down = false)) :
    processOneStop tick floors tbl evs e =
      ({ stopCommit (stopAlight tick tbl e).2.1 with passengers :=
          (stopCommit (stopAlight tick tbl e).2.1).passengers ++
          ((stopBoardSelect (stopCommit (stopAlight tick tbl e).2.1)
              (floors.getD e.position.current_floor defaultFloor)).1 ++
           (stopBoardSelect (stopCommit (stopAlight tick tbl e).2.1)
              (floors.getD e.position.current_floor defaultFloor)).2.1) },
       floors.set e.position.current_floor
         (stopBoardSelect (stopCommit (stopAlight tick tbl e).2.1)
           (floors.getD e.position.current_floor defaultFloor)).2.2,
       boardStamp tick e.id
         ((stopBoardSelect (stopCommit (stopAlight tick tbl e).2.1)
             (floors.getD e.position.current_floor defaultFloor)).1 ++
          (stopBoardSelect (stopCommit (stopAlight tick tbl e).2.1)
             (floors.getD e.position.current_floor defaultFloor)).2.1)
         (stopAlight tick tbl e).1,
       evs ++ (stopAlight tick tbl e).2.2 ++
         ((stopBoardSelect (stopCommit (stopAlight tick tbl e).2.1)
             (floors.getD e.position.current_floor defaultFloor)).1 ++
          (stopBoardSelect (stopCommit (stopAlight tick tbl e).2.1)
             (floors.getD e.position.current_floor defaultFloor)).2.1).map
           (fun pid => ⟨tick, EventType.passenger_board,
             edElevFloorPass e.id e.position.current_floor pid⟩)) := by
  simp only [processOneStop]
  rw [if_pos hs, if_neg hidle]

/-- Claim C5: when a stopped elevator is processed in the stop-resolution
phase, every onboard passenger whose destination is the current floor is
removed from the car with `dropoff_tick` stamped to the current tick and an
alight event emitted, and all alight events precede every other event the
resolution emits for that elevator (idle or board), regardless of the state
of the direction indicators.  (The passenger may not simultaneously wait in
the current floor's queues, as holds for every real passenger.) -/
theorem stopped_elevator_alights_before_boarding
    (tick : Nat) (floors : List FloorState) (tbl : PassengerTable)
    (evs : List SimulationEvent) (e : ElevatorState) (pid : Nat)
    (hs : e.run_status = ElevatorStatus.stopped)
    (hmem : pid ∈ e.passengers)
    (hm : pmemb tbl pid = true)
    (hdest : (pget tbl pid).destination = e.position.current_floor)
    (hup : pid ∉ (floors.getD e.position.current_floor defaultFloor).up_queue)
    (hdown : pid ∉ (floors.getD e.position.current_floor defaultFloor).down_queue) :
    pid ∉ (processOneStop tick floors tbl evs e).1.passengers ∧
    (pget (processOneStop tick floors tbl evs e).2.2.1 pid).dropoff_tick = tick ∧
    (⟨tick, EventType.passenger_alight,
      edElevFloorPass e.id e.position.current_floor pid⟩ : SimulationEvent) ∈
      (processOneStop tick floors tbl evs e).2.2.2 ∧
    (∃ pre post,
      (processOneStop tick floors tbl evs e).2.2.2 = evs ++ pre ++ post ∧
      (∀ ev ∈ pre, ev.type = EventType.passenger_alight) ∧
      (∀ ev ∈ post, ev.type ≠ EventType.passenger_alight)) := by
  have hP : ((pget tbl pid).destination == e.position.current_floor) = true :=
    beq_iff_eq.mpr hdest
  have hsnd := collectAlight_snd tick e.position.current_floor e.passengers tbl
  have hpass1 : (stopAlight tick tbl e).2.1.passengers =
      e.passengers.filter (fun x =>
        !((pget tbl x).destination == e.position.current_floor)) := by
    show (collectAlight tick e.position.current_floor e.passengers tbl).2.foldl
      List.erase e.passengers = _
    rw [hsnd]
    exact foldl_erase_filter _ _
  have hnotin1 : pid ∉ (stopAlight tick tbl e).2.1.passengers := by
    rw [hpass1]
    intro hc
    have hx := List.of_mem_filter hc
    rw [hP] at hx
    simp at hx
  have hstamp : (pget (stopAlight tick tbl e).1 pid).dropoff_tick = tick :=
    collectAlight_stamps tick e.position.current_floor e.passengers tbl pid hmem hm hdest
  have hevmem : (⟨tick, EventType.passenger_alight, edElevFloorPass e.id
      e.position.current_floor pid⟩ : SimulationEvent) ∈ (stopAlight tick tbl e).2.2 := by
    show _ ∈ (collectAlight tick e.position.current_floor e.passengers tbl).2.map _
    rw [hsnd]
    exact List.mem_map.mpr ⟨pid, List.mem_filter.mpr ⟨hmem, hP⟩, rfl⟩
  have halltype : ∀ ev ∈ (stopAlight tick tbl e).2.2,
      ev.type = EventType.passenger_alight := by
    intro ev hev
    obtain ⟨x, _, rfl⟩ := List.mem_map.mp hev
    rfl
  have hp2 : (stopCommit (stopAlight tick tbl e).2.1).passengers =
      (stopAlight tick tbl e).2.1.passengers := (stopCommit_fields _).1
  by_cases hidle : (stopCommit (stopAlight tick tbl e).2.1).indicators.up = false ∧
      (stopCommit (stopAlight tick tbl e).2.1).indicators.down = false
  · rw [processOneStop_stopped_idle tick floors tbl evs e hs hidle]
    refine ⟨?_, hstamp, ?_, (stopAlight tick tbl e).2.2,
      [⟨tick, EventType.idle, edElevFloor e.id e.position.current_floor⟩],
      rfl, halltype, ?_⟩
    · rw [hp2]
      exact hnotin1
    · exact List.mem_append_left _ (List.mem_append_right _ hevmem)
    · intro ev hev
      rw [List.mem_singleton.mp hev]
      intro hc
      exact EventType.noConfusion hc
  · rw [processOneStop_stopped_board tick floors tbl evs e hs hidle]
    refine ⟨?_, ?_, ?_, (stopAlight tick tbl e).2.2, _, rfl, halltype, ?_⟩
    · intro hc
      rcases List.mem_append.mp hc with hc1 | hc2
      · rw [hp2] at hc1
        exact hnotin1 hc1
      · rcases List.mem_append.mp hc2 with hc3 | hc4
        · exact hup (stopBoardSelect_fst_subset _ _ hc3)
        · exact hdown (stopBoardSelect_snd_subset _ _ hc4)
    · rw [boardStamp_keeps_dropoff]
      exact hstamp
    · exact List.mem_append_left _ (List.mem_append_right _ hevmem)
    · intro ev hev
      obtain ⟨x, _, rfl⟩ := List.mem_map.mp hev
      intro hc
      exact EventType.noConfusion hc

/-- Witness for C5 at a concrete stopped elevator carrying passenger 7
destined for the current floor. -/
theorem stopped_elevator_alights_witness :
    7 ∉ (processOneStop 5 [] tblStopWitness [] elevStopWitness).1.passengers ∧
    (pget (processOneStop 5 [] tblStopWitness [] elevStopWitness).2.2.1 7).dropoff_tick = 5 ∧
    (⟨5, EventType.passenger_alight, edElevFloorPass 0 0 7⟩ : SimulationEvent) ∈
      (processOneStop 5 [] tblStopWitness [] elevStopWitness).2.2.2 ∧
    (∃ pre post,
      (processOneStop 5 [] tblStopWitness [] elevStopWitness).2.2.2 = [] ++ pre ++ post ∧
      (∀ ev ∈ pre, ev.type = EventType.passenger_alight) ∧
      (∀ ev ∈ post, ev.type ≠ EventType.passenger_alight)) :=
  stopped_elevator_alights_before_boarding 5 [] tblStopWitness [] elevStopWitness 7
    rfl (by decide) (by decide) (by decide) (by decide) (by decide)
